import Mathlib

/-!
Shallow embedding of the mcp-graphql server (src/index.ts and
src/helpers/operations.ts) and proofs about the spec's claims.

Conventions of the embedding:
* JavaScript strings are Lean `String`s.
* A thrown JS exception is an `Except.error`; a caught one disappears into
  the catch branch exactly where the source catches it.
* External collaborators (the graphql parser, the file system, the network
  fetch, the introspection helpers, transport-handle close) are parameters:
  a function or value of `Except`/outcome type supplied to the embedded code.
* Zod validator values are modelled by the inductive `ZodType`, which records
  exactly the structure the source builds (base validator, array wrapper,
  optional wrapper).
-/

namespace MCPGraphQL

/-- GraphQL type AST for variable declarations (graphql-js TypeNode):
NamedType, ListType, NonNullType. -/
inductive GQLType where
  | named (name : String)
  | list (inner : GQLType)
  | nonNull (inner : GQLType)
deriving DecidableEq, Repr

/-- Model of the Zod validators the source constructs in graphqlTypeToZod:
z.string(), z.number(), z.boolean(), z.record(z.any()).describe(...),
z.array(...), .optional(). -/
inductive ZodType where
  | str
  | num
  | boolean
  | record (typeName : String)
  | array (inner : ZodType)
  | optional (inner : ZodType)
deriving DecidableEq, Repr

/-- One GraphQL variable definition `$name : type = default?`; only the
presence of a default value matters to the source. -/
structure VariableDefinition where
  varName : String
  type : GQLType
  hasDefaultValue : Bool
deriving DecidableEq, Repr

/-- Operation kind of an OperationDefinitionNode (`definition.operation`). -/
inductive OperationType where
  | query
  | mutation
  | subscription
deriving DecidableEq, Repr

/-- The string graphql-js stores in `definition.operation`. -/
def OperationType.toStr : OperationType → String
  | .query => "query"
  | .mutation => "mutation"
  | .subscription => "subscription"

/-- A definition of a parsed GraphQL document: an OperationDefinition node
(with the fields the source reads) or any other definition kind
(fragment definitions etc.), which the source ignores. -/
inductive GQLDefinition where
  | operation (op : OperationType) (name : Option String)
      (variableDefinitions : List VariableDefinition)
  | other
deriving DecidableEq, Repr

/-- GraphQLOperation interface of src/helpers/operations.ts. The
`variables` record is a JS object: an insertion-ordered association list. -/
structure GraphQLOperation where
  name : String
  query : String
  variableSchema : List (String × ZodType)
  description : String
deriving DecidableEq, Repr

/-- JS string helpers, implemented over the character list of the string
so that concrete runs reduce inside the kernel. `listLeads pat l` tells
whether pat is an initial segment of l. -/
def listLeads : List Char → List Char → Bool
  | [], _ => true
  | _ :: _, [] => false
  | a :: pat, b :: l => a = b && listLeads pat l

/-- JS `s.startsWith(pat)`. -/
def strStartsWith (s pat : String) : Bool :=
  listLeads pat.data s.data

/-- JS `s.endsWith(pat)`. -/
def strEndsWith (s pat : String) : Bool :=
  listLeads pat.data.reverse s.data.reverse

/-- Whether pat occurs as a contiguous segment of l. -/
def listHasInfix (pat : List Char) : List Char → Bool
  | [] => listLeads pat []
  | c :: rest => listLeads pat (c :: rest) || listHasInfix pat rest

/-- JS `s.includes(pat)`. -/
def strIncludes (s pat : String) : Bool :=
  listHasInfix pat.data s.data

/-- The whitespace characters relevant to JS `trim` for this source's
files: space, tab, newline, carriage return, vertical tab, form feed. -/
def isJsWhitespace (c : Char) : Bool :=
  c = ' ' || c = '\t' || c = '\n' || c = '\r' || c = '\x0b' || c = '\x0c'

/-- JS `s.trim()`. -/
def jsTrim (s : String) : String :=
  ⟨((s.data.dropWhile isJsWhitespace).reverse.dropWhile
      isJsWhitespace).reverse⟩

/-- JS `s.substring(1)` for a string of ASCII-led content. -/
def strDropFirst (s : String) : String :=
  ⟨s.data.drop 1⟩

/-- Drop the last n characters of s. -/
def strDropRight (s : String) (n : Nat) : String :=
  ⟨(s.data.reverse.drop n).reverse⟩

/-- JS `content.split('\n')`: every newline separates parts. -/
def splitLinesAux : List Char → List Char → List (List Char)
  | [], cur => [cur.reverse]
  | c :: rest, cur =>
    if c = '\n' then cur.reverse :: splitLinesAux rest []
    else splitLinesAux rest (c :: cur)

/-- The lines of a file content, as content.split('\n') produces them. -/
def splitLines (s : String) : List String :=
  (splitLinesAux s.data []).map (fun l => ⟨l⟩)

/-- JS `parts.join(' ')`. -/
def joinWithSpace : List String → String
  | [] => ""
  | [s] => s
  | s :: rest => s ++ " " ++ joinWithSpace rest

/-- JS object assignment `m[k] = v`: overwrite an existing key in place,
otherwise append. -/
def recordSet (m : List (String × ZodType)) (k : String) (v : ZodType) :
    List (String × ZodType) :=
  if m.any (fun p => p.1 = k) then
    m.map (fun p => if p.1 = k then (k, v) else p)
  else
    m ++ [(k, v)]

/-- Loop body of extractDescriptionFromComments (operations.ts lines 23-36):
walks the lines carrying the `separatorFound` flag, collecting trimmed
comment lines after the first line containing "@description", and stopping
at the first non-blank non-comment line seen after the separator. -/
def collectCommentLines : List String → Bool → List String → List String
  | [], _, acc => acc
  | line :: rest, separatorFound, acc =>
    let trimmedLine := jsTrim line
    if strIncludes trimmedLine "@description" then
      collectCommentLines rest true acc
    else if separatorFound && strStartsWith trimmedLine "#" then
      collectCommentLines rest separatorFound
        (acc ++ [jsTrim (strDropFirst trimmedLine)])
    else if separatorFound && trimmedLine ≠ "" &&
        !strStartsWith trimmedLine "#" then
      acc
    else
      collectCommentLines rest separatorFound acc

/-- extractDescriptionFromComments (operations.ts lines 18-44): returns
null when no comment line was collected, otherwise the non-empty collected
lines joined with single spaces. -/
def extractDescriptionFromComments (content : String) : Option String :=
  let lines := splitLines content
  let commentLines := collectCommentLines lines false []
  if commentLines.length = 0 then
    none
  else
    some (joinWithSpace (commentLines.filter (fun l => l.data.length > 0)))

/-- Scalar-name dispatch of graphqlTypeToZod (operations.ts lines 166-187):
String/ID to z.string(), Int/Float to z.number(), Boolean to z.boolean(),
names ending in "Input" or "Type" to a permissive record, anything else to
the z.string() fallback. -/
def scalarToZod (typeName : String) : ZodType :=
  if typeName = "String" || typeName = "ID" then .str
  else if typeName = "Int" || typeName = "Float" then .num
  else if typeName = "Boolean" then .boolean
  else if strEndsWith typeName "Input" || strEndsWith typeName "Type" then
    .record typeName
  else .str

/-- graphqlTypeToZod (operations.ts lines 130-199): strips one outer
NonNullType (setting isRequired), then one ListType (setting isList), then
one NonNullType inside the list; if what remains is not a NamedType it
returns null; otherwise it builds the base validator, wraps in array when
isList, and marks optional when not required or a default value exists. -/
def graphqlTypeToZod (type : GQLType) (hasDefaultValue : Bool) :
    Option ZodType :=
  let step1 : Bool × GQLType :=
    match type with
    | .nonNull inner => (true, inner)
    | t => (false, t)
  let isRequired := step1.1
  let step2 : Bool × GQLType :=
    match step1.2 with
    | .list inner =>
      match inner with
      | .nonNull inner2 => (true, inner2)
      | t => (true, t)
    | t => (false, t)
  let isList := step2.1
  match step2.2 with
  | .named typeName =>
    let zodType := scalarToZod typeName
    let zodType := if isList then ZodType.array zodType else zodType
    let zodType :=
      if !isRequired || hasDefaultValue then ZodType.optional zodType
      else zodType
    some zodType
  | _ => none

/-- Fold step of the variables loop in parseOperationDefinition
(operations.ts lines 107-115): a variable whose graphqlTypeToZod is null is
skipped, otherwise it is assigned into the record. -/
def addVariable (acc : List (String × ZodType)) (varDef : VariableDefinition) :
    List (String × ZodType) :=
  match graphqlTypeToZod varDef.type varDef.hasDefaultValue with
  | some zodType => recordSet acc varDef.varName zodType
  | none => acc

/-- parseOperationDefinition (operations.ts lines 97-123): operation name
defaults to the file name, the description falls back to
"Execute <type> operation: <name>" when the extracted description is null
or empty (JS `||` treats "" as falsy), and the variables record is built by
the addVariable loop. The source's return type is nullable but the body
always returns an object. -/
def parseOperationDefinition (op : OperationType) (name : Option String)
    (variableDefinitions : List VariableDefinition) (fileName : String)
    (extractedDescription : Option String) : Option GraphQLOperation :=
  let operationName := name.getD fileName
  let fallback := "Execute " ++ op.toStr ++ " operation: " ++ operationName
  let description :=
    match extractedDescription with
    | some d => if d = "" then fallback else d
    | none => fallback
  some { name := operationName
         query := ""
         variableSchema := variableDefinitions.foldl addVariable []
         description := description }

instance {α β : Type} [DecidableEq α] [DecidableEq β] :
    DecidableEq (Except α β) := fun x y =>
  match x, y with
  | .ok a, .ok b =>
    if h : a = b then .isTrue (by rw [h])
    else .isFalse (fun hh => h (Except.ok.inj hh))
  | .error a, .error b =>
    if h : a = b then .isTrue (by rw [h])
    else .isFalse (fun hh => h (Except.error.inj hh))
  | .ok _, .error _ => .isFalse (fun hh => Except.noConfusion hh)
  | .error _, .ok _ => .isFalse (fun hh => Except.noConfusion hh)

/-- One directory entry as loadGraphQLOperations sees it: the file name and
the outcome of readFile (an unreadable file is an `Except.error`, which the
source does not catch per file). -/
structure FileEntry where
  fileName : String
  readResult : Except String String
deriving DecidableEq, Repr

/-- path.extname(file) === ".graphql" (operations.ts line 54) for ordinary
file names (a leading-dot file with no other dot is not modelled). -/
def isGraphqlFile (f : FileEntry) : Bool :=
  strEndsWith f.fileName ".graphql"

/-- path.basename(file, ".graphql"): the file name with the extension
suffix removed. -/
def baseNameNoExt (fileName : String) : String :=
  if strEndsWith fileName ".graphql" then
    strDropRight fileName (".graphql".data.length)
  else fileName

/-- Inner loop of loadGraphQLOperations (operations.ts lines 69-77): for
each OperationDefinition in the parsed document, build the descriptor, set
its query to the whole file content and append it. -/
def emitDefinitions (content : String) (extractedDescription : Option String)
    (fileName : String) (acc : List GraphQLOperation) :
    List GQLDefinition → List GraphQLOperation
  | [] => acc
  | .other :: rest => emitDefinitions content extractedDescription fileName acc rest
  | .operation op name varDefs :: rest =>
    match parseOperationDefinition op name varDefs (baseNameNoExt fileName)
        extractedDescription with
    | some operation =>
      emitDefinitions content extractedDescription fileName
        (acc ++ [{ operation with query := content }]) rest
    | none => emitDefinitions content extractedDescription fileName acc rest

/-- File loop of loadGraphQLOperations (operations.ts lines 58-81) inside
the outer try: a failing readFile propagates as `Except.error` (aborting
the loop), a parse failure on one file is caught and that file skipped. -/
def loadOperationsLoop (parseDoc : String → Except String (List GQLDefinition)) :
    List FileEntry → List GraphQLOperation →
    Except String (List GraphQLOperation)
  | [], acc => .ok acc
  | file :: rest, acc =>
    match file.readResult with
    | .error e => .error e
    | .ok content =>
      let extractedDescription := extractDescriptionFromComments content
      match parseDoc content with
      | .error _ => loadOperationsLoop parseDoc rest acc
      | .ok defs =>
        loadOperationsLoop parseDoc rest
          (emitDefinitions content extractedDescription file.fileName acc defs)

/-- loadGraphQLOperations (operations.ts lines 51-88): readdir and every
readFile live inside one try whose catch returns the empty array, so a
failing directory read or any failing file read yields []; the .graphql
filter runs first; descriptors accumulate across files otherwise. The
graphql `parse` call is the external parser, passed as `parseDoc`. -/
def loadGraphQLOperations
    (dirListing : Except String (List FileEntry))
    (parseDoc : String → Except String (List GQLDefinition)) :
    List GraphQLOperation :=
  match dirListing with
  | .error _ => []
  | .ok files =>
    let graphqlFiles := files.filter isGraphqlFile
    match loadOperationsLoop parseDoc graphqlFiles [] with
    | .ok operations => operations
    | .error _ => []

/-! Embedding of the tool handlers and HTTP session logic of src/index.ts. -/

/-- A tool result as index.ts builds it: the optional isError flag and the
text items of the content array. -/
structure ToolResult where
  isError : Bool
  content : List String
deriving DecidableEq, Repr

/-- The introspect-schema tool handler (index.ts lines 92-120). `schemaCfg`
is env.SCHEMA; `localSchema` models introspectLocalSchema and
`endpointSchema` models introspectEndpoint on env.ENDPOINT with
env.HEADERS, each an `Except.error` when the helper throws. The try/catch
turns any thrown fault into an error-tagged result, so the handler always
returns a ToolResult. Note the handler never consults
introspectSchemaFromUrl: a SCHEMA value is always passed to
introspectLocalSchema, URL-shaped or not. -/
def introspectSchemaTool (schemaCfg : Option String)
    (localSchema : String → Except String String)
    (endpointSchema : Except String String) : ToolResult :=
  let fetched : Except String String :=
    match schemaCfg with
    | some s => localSchema s
    | none => endpointSchema
  match fetched with
  | .ok schema => { isError := false, content := [schema] }
  | .error e =>
    { isError := true, content := ["Failed to introspect schema: " ++ e] }

/-- The graphql-schema resource handler (index.ts lines 52-79): unlike the
tool, it routes a SCHEMA value starting with http:// or https:// to
introspectSchemaFromUrl (`urlSchema`), and it rethrows on failure instead
of returning an error-tagged result. -/
def graphqlSchemaResource (schemaCfg : Option String)
    (localSchema urlSchema : String → Except String String)
    (endpointSchema : Except String String) : Except String (List String) :=
  let fetched : Except String String :=
    match schemaCfg with
    | some s =>
      if strStartsWith s "http://" || strStartsWith s "https://" then
        urlSchema s
      else localSchema s
    | none => endpointSchema
  match fetched with
  | .ok schema => .ok [schema]
  | .error e => .error ("Failed to get GraphQL schema: " ++ e)

/-- Modelled from the spec: the introspect-schema tool as the spec words it
in section 4.3 — "resolves schema text with priority local-file →
remote-URL → live introspection query (first configured source wins)",
i.e. an URL-shaped SCHEMA value is fetched remotely. Stated for comparison
with introspectSchemaTool, which embeds the source. -/
def introspectSchemaToolSpec (schemaCfg : Option String)
    (localSchema urlSchema : String → Except String String)
    (endpointSchema : Except String String) : ToolResult :=
  let fetched : Except String String :=
    match schemaCfg with
    | some s =>
      if strStartsWith s "http://" || strStartsWith s "https://" then
        urlSchema s
      else localSchema s
    | none => endpointSchema
  match fetched with
  | .ok schema => { isError := false, content := [schema] }
  | .error e =>
    { isError := true, content := ["Failed to introspect schema: " ++ e] }

/-- Outcome of the single fetch in the query-graphql handler (index.ts
lines 164-216): non-ok HTTP status, ok status with a non-empty errors
array (`gqlErrors` carries the stringified body), ok status with no
errors (`success` carries the pretty-printed body), or a throw from
fetch/json. -/
inductive FetchOutcome where
  | httpError (statusText : String) (body : String)
  | gqlErrors (stringifiedData : String)
  | success (stringifiedData : String)
  | threw (msg : String)
deriving DecidableEq, Repr

/-- Result of one query-graphql invocation: the returned tool result (or
the rethrown fault, index.ts line 218) together with the list of POST
bodies (query, variables) issued to the backend. -/
structure QueryOutcome where
  result : Except String ToolResult
  posts : List (String × Option String)
deriving DecidableEq, Repr

/-- The error text of the disallowed-mutation branch (index.ts line 146). -/
def mutationsNotAllowedText : String :=
  "Mutations are not allowed unless you enable them in the configuration. Please use a query operation instead."

/-- The mutation check of index.ts lines 135-138: some definition is an
OperationDefinition whose operation is "mutation". -/
def containsMutation (defs : List GQLDefinition) : Bool :=
  defs.any (fun d =>
    match d with
    | .operation op _ _ => op = .mutation
    | .other => false)

/-- An error-tagged tool result with a single text item. -/
def errResult (text : String) : ToolResult :=
  { isError := true, content := [text] }

/-- A success tool result with a single text item. -/
def okResult (text : String) : ToolResult :=
  { isError := false, content := [text] }

/-- The backend-forwarding tail of the query-graphql handler (index.ts
lines 163-219): exactly one POST with the query and variables; a non-ok
status or a response with errors yields an error-tagged result, success
yields a plain result, and a thrown fetch fault is rethrown wrapped in
"Failed to execute GraphQL query". -/
def forwardToBackend (query : String) (vars : Option String)
    (fetch : FetchOutcome) : QueryOutcome :=
  match fetch with
  | .httpError statusText body =>
    { result := .ok (errResult
        ("GraphQL request failed: " ++ statusText ++ "\n" ++ body)),
      posts := [(query, vars)] }
  | .gqlErrors stringifiedData =>
    { result := .ok (errResult
        ("The GraphQL response has errors, please fix the query: "
          ++ stringifiedData)),
      posts := [(query, vars)] }
  | .success stringifiedData =>
    { result := .ok (okResult stringifiedData),
      posts := [(query, vars)] }
  | .threw msg =>
    { result := .error ("Failed to execute GraphQL query: " ++ msg),
      posts := [(query, vars)] }

/-- The query-graphql tool handler (index.ts lines 130-220). `parseGraphql`
is the external graphql parser applied to the supplied query text; a parse
throw is caught and reported without any backend call; a parsed document
containing a mutation with ALLOW_MUTATIONS false is rejected without any
backend call; otherwise the request is forwarded to the backend. -/
def queryGraphqlHandler (allowMutations : Bool)
    (parseGraphql : String → Except String (List GQLDefinition))
    (query : String) (vars : Option String) (fetch : FetchOutcome) :
    QueryOutcome :=
  match parseGraphql query with
  | .error e =>
    { result := .ok (errResult ("Invalid GraphQL query: " ++ e)),
      posts := [] }
  | .ok defs =>
    if containsMutation defs && !allowMutations then
      { result := .ok (errResult mutationsNotAllowedText), posts := [] }
    else
      forwardToBackend query vars fetch

/-! Embedding of the http-transport session handling (index.ts main(),
lines 231-399). Transport handles are opaque and modelled by a Nat drawn
from a fresh-handle counter; the registry `transports` is the JS object
mapping session id to transport, an insertion-ordered association list. -/

/-- State of the http mode: the session registry and the supply counter
for fresh transport handles. -/
structure MultiplexState where
  transports : List (String × Nat)
  nextHandle : Nat
deriving DecidableEq, Repr

/-- Registry lookup `transports[sessionId]`. -/
def lookupTransport (st : MultiplexState) (sessionId : String) : Option Nat :=
  (st.transports.find? (fun p => p.1 = sessionId)).map (fun p => p.2)

/-- Registry deletion `delete transports[sessionId]`. -/
def deleteTransport (st : MultiplexState) (sessionId : String) :
    MultiplexState :=
  { st with transports := st.transports.filter (fun p => p.1 ≠ sessionId) }

/-- What the http server writes back for one request, as far as the
session logic decides it: delegation to a transport's handleRequest, one
of the structured JSON-RPC error envelopes, or the DELETE success body. -/
inductive HttpResponse where
  | handled (handle : Nat)
  | parseError
  | sessionNotFound
  | terminated
  | internalError
  | methodNotAllowed
deriving DecidableEq, Repr

/-- POST branch of the http request handler (index.ts lines 249-305).
`bodyParses` tells whether JSON.parse of the body succeeds. With a session
id found in the registry the existing transport handles the request; in
every other case — including a session id absent from the registry — a new
StreamableHTTPServerTransport is created and connected (registration into
the registry happens later through the SDK's onsessioninitialized callback
with a freshly generated id, not the supplied one, so the registry itself
is unchanged here). The returned Nat counts transports created. -/
def handlePost (st : MultiplexState) (bodyParses : Bool)
    (sessionId : Option String) : MultiplexState × HttpResponse × Nat :=
  if !bodyParses then (st, .parseError, 0)
  else
    match sessionId with
    | some sid =>
      match lookupTransport st sid with
      | some h => (st, .handled h, 0)
      | none =>
        ({ st with nextHandle := st.nextHandle + 1 },
         .handled st.nextHandle, 1)
    | none =>
      ({ st with nextHandle := st.nextHandle + 1 },
       .handled st.nextHandle, 1)

/-- GET/DELETE branch of the http request handler (index.ts lines
306-347). A missing or unknown session id yields the 404 "Session not
found" envelope and changes nothing. On DELETE, transport.close() is
attempted (`closeThrows h` tells whether it throws): a successful close
deletes the registry entry and acknowledges with the success body; a
throwing close leaves the registry entry in place and answers with the 500
internal-error envelope. On GET the transport handles the request. -/
def handleGetOrDelete (isDelete : Bool) (closeThrows : Nat → Bool)
    (st : MultiplexState) (sessionId : Option String) :
    MultiplexState × HttpResponse :=
  match sessionId with
  | none => (st, .sessionNotFound)
  | some sid =>
    match lookupTransport st sid with
    | none => (st, .sessionNotFound)
    | some h =>
      if !isDelete then (st, .handled h)
      else if closeThrows h then (st, .internalError)
      else (deleteTransport st sid, .terminated)

/-- Events of the SIGINT shutdown sequence, in order: one close attempt
per registry entry, then the close of the listening http server. -/
inductive ShutdownEvent where
  | closedHandle (h : Nat)
  | closeFailed (h : Nat)
  | serverClosed
deriving DecidableEq, Repr

/-- Loop of the SIGINT handler (index.ts lines 386-393): for each registry
entry, close the transport and delete the entry; a throwing close is
caught and logged, leaving the entry in the registry. Accumulates the
event trace and the surviving entries. -/
def shutdownLoop (closeThrows : Nat → Bool) :
    List (String × Nat) → List ShutdownEvent → List (String × Nat) →
    List ShutdownEvent × List (String × Nat)
  | [], events, remaining => (events ++ [.serverClosed], remaining)
  | (sid, h) :: rest, events, remaining =>
    if closeThrows h then
      shutdownLoop closeThrows rest (events ++ [.closeFailed h])
        (remaining ++ [(sid, h)])
    else
      shutdownLoop closeThrows rest (events ++ [.closedHandle h]) remaining

/-- The SIGINT handler (index.ts lines 382-399): close every transport in
the registry, then stop the listening endpoint (httpServer.close). Returns
the event trace and the registry contents after the handler ran. -/
def sigintHandler (closeThrows : Nat → Bool) (st : MultiplexState) :
    List ShutdownEvent × List (String × Nat) :=
  shutdownLoop closeThrows st.transports [] []

/-! Definitions supporting the claims about the variable-type mapping. -/

/-- Shapes of declared variable types covered by the spec's mapping table:
a named base type, optionally wrapped in one list whose element type may
carry its own NonNull wrapper. -/
inductive TableShape where
  | plain (baseName : String)
  | listOf (innerNonNull : Bool) (baseName : String)
deriving DecidableEq, Repr

/-- The GraphQL type AST denoted by a table shape. -/
def shapeToType : TableShape → GQLType
  | .plain n => .named n
  | .listOf false n => .list (.named n)
  | .listOf true n => .list (.nonNull (.named n))

/-- A declared variable type of table shape, with or without the outer
NonNull wrapper. -/
def declaredType (outerNonNull : Bool) (s : TableShape) : GQLType :=
  if outerNonNull then .nonNull (shapeToType s) else shapeToType s

/-- Modelled from the spec: the base rows of the variable-type mapping
table in section 4.1 — String and ID map to string, Int and Float to
number, Boolean to boolean, names ending in "Input" or "Type" to a
permissive object, any other named type to the string fallback. -/
def tableBaseValidator (baseName : String) : ZodType :=
  if baseName = "String" || baseName = "ID" then .str
  else if baseName = "Int" || baseName = "Float" then .num
  else if baseName = "Boolean" then .boolean
  else if strEndsWith baseName "Input" || strEndsWith baseName "Type" then
    .record baseName
  else .str

/-- Modelled from the spec: the full mapping table — a list wrapper yields
an array of the base validator, and the validator is required exactly when
the declared type has an outer NonNull wrapper and no default value. -/
def tableValidator (outerNonNull hasDefault : Bool) (s : TableShape) :
    ZodType :=
  let core : ZodType :=
    match s with
    | .plain n => tableBaseValidator n
    | .listOf _ n => .array (tableBaseValidator n)
  if outerNonNull && !hasDefault then core else .optional core

/-- The unwrapping performed by graphqlTypeToZod before the NamedType
check: strip at most one outer NonNull, then one list wrapper together
with one NonNull directly inside it. -/
def unwrappedBase (t : GQLType) : GQLType :=
  let s1 : GQLType :=
    match t with
    | .nonNull inner => inner
    | t0 => t0
  match s1 with
  | .list (.nonNull inner2) => inner2
  | .list inner => inner
  | t0 => t0

/-- Whether the unwrapped base is a named type — exactly the condition
under which graphqlTypeToZod returns a validator. -/
def hasNamedBase (t : GQLType) : Bool :=
  match unwrappedBase t with
  | .named _ => true
  | _ => false

lemma graphqlTypeToZod_eq_none_iff (t : GQLType) (d : Bool) :
    graphqlTypeToZod t d = none ↔ hasNamedBase t = false := by
  cases t with
  | named n => simp [graphqlTypeToZod, hasNamedBase, unwrappedBase]
  | list inner =>
    cases inner with
    | named n => simp [graphqlTypeToZod, hasNamedBase, unwrappedBase]
    | list inner2 => simp [graphqlTypeToZod, hasNamedBase, unwrappedBase]
    | nonNull inner2 =>
      cases inner2 <;> simp [graphqlTypeToZod, hasNamedBase, unwrappedBase]
  | nonNull inner =>
    cases inner with
    | named n => simp [graphqlTypeToZod, hasNamedBase, unwrappedBase]
    | list inner2 =>
      cases inner2 with
      | named n => simp [graphqlTypeToZod, hasNamedBase, unwrappedBase]
      | list inner3 => simp [graphqlTypeToZod, hasNamedBase, unwrappedBase]
      | nonNull inner3 =>
        cases inner3 <;> simp [graphqlTypeToZod, hasNamedBase, unwrappedBase]
    | nonNull inner2 =>
      simp [graphqlTypeToZod, hasNamedBase, unwrappedBase]

/-- C5: for every variable declaration of a shape the mapping table covers
(named base, at most one list wrapper with optional inner NonNull, with or
without outer NonNull and default value), the validator graphqlTypeToZod
derives equals the table's validator: String/ID map to string, Int/Float
to number, Boolean to boolean, names ending in "Input"/"Type" to a
permissive object, other named types to the string fallback, a list
wrapper yields an array of the inner validator, and the validator is
required exactly when the type has an outer NonNull wrapper and no default
value. -/
theorem C5_mapping_table (outerNonNull hasDefault : Bool) (s : TableShape) :
    graphqlTypeToZod (declaredType outerNonNull s) hasDefault =
      some (tableValidator outerNonNull hasDefault s) := by
  cases s with
  | plain n =>
    cases outerNonNull <;> cases hasDefault <;>
      simp [graphqlTypeToZod, declaredType, shapeToType, tableValidator,
        tableBaseValidator, scalarToZod]
  | listOf inn n =>
    cases inn <;> cases outerNonNull <;> cases hasDefault <;>
      simp [graphqlTypeToZod, declaredType, shapeToType, tableValidator,
        tableBaseValidator, scalarToZod]

/-- C9: a variable declaration whose type, after the unwrapping
graphqlTypeToZod performs (at most one outer NonNull, one list wrapper and
one inner NonNull), is still not a named type gets the null validator and
is silently omitted from the operation's variable schema: the descriptor
is the one computed without that variable. -/
theorem C9_non_named_base_omitted (op : OperationType) (name : Option String)
    (fileName : String) (extractedDescription : Option String)
    (l1 l2 : List VariableDefinition) (v : VariableDefinition)
    (hv : hasNamedBase v.type = false) :
    graphqlTypeToZod v.type v.hasDefaultValue = none ∧
    parseOperationDefinition op name (l1 ++ v :: l2) fileName
        extractedDescription =
      parseOperationDefinition op name (l1 ++ l2) fileName
        extractedDescription := by
  have hz : graphqlTypeToZod v.type v.hasDefaultValue = none :=
    (graphqlTypeToZod_eq_none_iff _ _).mpr hv
  refine ⟨hz, ?_⟩
  simp [parseOperationDefinition, List.foldl_append, addVariable, hz]

/-- Witness for C9 at the nested list type [[String]]. -/
theorem C9_witness :
    hasNamedBase (GQLType.list (GQLType.list (GQLType.named "String"))) =
      false ∧
    graphqlTypeToZod (GQLType.list (GQLType.list (GQLType.named "String")))
      false = none ∧
    parseOperationDefinition .query (some "Q")
        [⟨"tags", .list (.list (.named "String")), false⟩] "Q" none =
      parseOperationDefinition .query (some "Q") [] "Q" none :=
  ⟨by decide,
   (C9_non_named_base_omitted .query (some "Q") "Q" none [] []
      ⟨"tags", .list (.list (.named "String")), false⟩ (by decide)).1,
   (C9_non_named_base_omitted .query (some "Q") "Q" none [] []
      ⟨"tags", .list (.list (.named "String")), false⟩ (by decide)).2⟩

/-! Concrete inputs for the claims about description extraction and
loading. -/

/-- The file content of the spec's concrete scenario for the description
marker. -/
def c4Content : String :=
  "# @description: Creates a user\nmutation CreateUser($input: CreateUserInput!) \x7b...\x7d"

/-- The graphql parse of c4Content, modelled generously as one mutation
CreateUser with the single variable $input : CreateUserInput! (the real
parser would reject the elided selection set, which would only skip the
file and also produce no descriptor with the claimed description). -/
def c4ParseDoc : String → Except String (List GQLDefinition) :=
  fun _ =>
    .ok [.operation .mutation (some "CreateUser")
      [⟨"input", .nonNull (.named "CreateUserInput"), false⟩]]

/-- The descriptors loaded from a directory holding that one file. -/
def c4Load : List GraphQLOperation :=
  loadGraphQLOperations (.ok [⟨"CreateUser.graphql", .ok c4Content⟩])
    c4ParseDoc

/-- C4 counterexample: loading the scenario file does not produce the
description "Creates a user" — the line containing the marker is itself
skipped (operations.ts lines 26-29) and no comment line follows it, so
extraction returns null and the descriptor carries the synthesized
fallback description instead. -/
theorem C4_counterexample_description :
    extractDescriptionFromComments c4Content = none ∧
    c4Load.map GraphQLOperation.description =
      ["Execute mutation operation: CreateUser"] ∧
    ¬ "Execute mutation operation: CreateUser" = "Creates a user" := by
  refine ⟨by decide, by decide, by decide⟩

/-- C4 amended: loading that file produces exactly one descriptor whose
description is the fallback "Execute mutation operation: CreateUser"
(because the marker line is skipped and no comment line follows), and
whose variable schema maps input to the required permissive-object
validator. -/
theorem C4_descriptor_fields :
    c4Load =
      [{ name := "CreateUser",
         query := c4Content,
         variableSchema := [("input", ZodType.record "CreateUserInput")],
         description := "Execute mutation operation: CreateUser" }] ∧
    graphqlTypeToZod (.nonNull (.named "CreateUserInput")) false =
      some (ZodType.record "CreateUserInput") := by
  refine ⟨by decide, by decide⟩

/-! Lemmas about the loading loop, feeding the claims about queryText and
read failures. -/

lemma mem_emitDefinitions (content : String) (ed : Option String)
    (fn : String) :
    ∀ (defs : List GQLDefinition) (acc : List GraphQLOperation)
      (op : GraphQLOperation),
      op ∈ emitDefinitions content ed fn acc defs →
      op ∈ acc ∨ op.query = content := by
  intro defs
  induction defs with
  | nil => intro acc op h; exact Or.inl h
  | cons d rest ih =>
    intro acc op h
    cases d with
    | other =>
      simp only [emitDefinitions] at h
      exact ih acc op h
    | operation o n vds =>
      simp only [emitDefinitions, parseOperationDefinition] at h
      rcases ih _ op h with hacc | hq
      · rcases List.mem_append.mp hacc with h1 | h2
        · exact Or.inl h1
        · simp only [List.mem_singleton] at h2
          subst h2
          exact Or.inr rfl
      · exact Or.inr hq

lemma mem_loadOperationsLoop
    (parseDoc : String → Except String (List GQLDefinition)) :
    ∀ (files : List FileEntry) (acc res : List GraphQLOperation),
      loadOperationsLoop parseDoc files acc = .ok res →
      ∀ op ∈ res,
        op ∈ acc ∨ ∃ f ∈ files, f.readResult = Except.ok op.query := by
  intro files
  induction files with
  | nil =>
    intro acc res h op hop
    simp only [loadOperationsLoop, Except.ok.injEq] at h
    subst h
    exact Or.inl hop
  | cons f rest ih =>
    intro acc res h op hop
    simp only [loadOperationsLoop] at h
    cases hr : f.readResult with
    | error e =>
      simp only [hr] at h
      exact Except.noConfusion h
    | ok content =>
      simp only [hr] at h
      cases hp : parseDoc content with
      | error pe =>
        simp only [hp] at h
        rcases ih acc res h op hop with h1 | ⟨f', hf', hq⟩
        · exact Or.inl h1
        · exact Or.inr ⟨f', List.mem_cons_of_mem _ hf', hq⟩
      | ok defs =>
        simp only [hp] at h
        rcases ih _ res h op hop with h1 | ⟨f', hf', hq⟩
        · rcases mem_emitDefinitions content
              (extractDescriptionFromComments content) f.fileName defs acc op
              h1 with h2 | hq2
          · exact Or.inl h2
          · refine Or.inr ⟨f, List.mem_cons_self _ _, ?_⟩
            rw [hr, hq2]
        · exact Or.inr ⟨f', List.mem_cons_of_mem _ hf', hq⟩

lemma load_query_is_file_content
    (parseDoc : String → Except String (List GQLDefinition))
    (files : List FileEntry) (op : GraphQLOperation)
    (hop : op ∈ loadGraphQLOperations (.ok files) parseDoc) :
    ∃ f ∈ files, f.readResult = Except.ok op.query := by
  simp only [loadGraphQLOperations] at hop
  cases hl : loadOperationsLoop parseDoc (files.filter isGraphqlFile) [] with
  | error e =>
    rw [hl] at hop
    cases hop
  | ok ops =>
    rw [hl] at hop
    rcases mem_loadOperationsLoop parseDoc _ _ _ hl op hop with h1 | ⟨f, hf, hq⟩
    · cases h1
    · exact ⟨f, (List.mem_filter.mp hf).1, hq⟩

/-- C6: every descriptor emitted by loadGraphQLOperations carries as its
queryText the entire raw content of one of the supplied files, and for a
single file every descriptor it yields — in particular all descriptors of
a multi-definition file — carries exactly that file's whole content. -/
theorem C6_queryText_whole_file
    (parseDoc : String → Except String (List GQLDefinition)) :
    (∀ (files : List FileEntry) (op : GraphQLOperation),
        op ∈ loadGraphQLOperations (.ok files) parseDoc →
        ∃ f ∈ files, f.readResult = Except.ok op.query) ∧
    (∀ (f : FileEntry) (content : String) (op : GraphQLOperation),
        f.readResult = Except.ok content →
        op ∈ loadGraphQLOperations (.ok [f]) parseDoc →
        op.query = content) := by
  constructor
  · intro files op hop
    exact load_query_is_file_content parseDoc files op hop
  · intro f content op hr hop
    rcases load_query_is_file_content parseDoc [f] op hop with ⟨f', hf', hq⟩
    rcases List.mem_singleton.mp hf' with rfl
    rw [hr] at hq
    exact (Except.ok.inj hq).symm

/-- A two-definition file used to witness C6. -/
def c6Content : String := "query A \x7b a \x7d\nquery B \x7b b \x7d"

/-- The directory entry for that file. -/
def c6File : FileEntry := ⟨"Multi.graphql", .ok c6Content⟩

/-- The modelled graphql parse of that file: two operation definitions. -/
def c6ParseDoc : String → Except String (List GQLDefinition) :=
  fun _ => .ok [.operation .query (some "A") [], .operation .query (some "B") []]

/-- The first descriptor the C6 witness file yields. -/
def c6FirstOp : GraphQLOperation :=
  { name := "A", query := c6Content, variableSchema := [],
    description := "Execute query operation: A" }

/-- Witness for C6: both descriptors loaded from the two-definition file
carry the whole file content as queryText. -/
theorem C6_witness :
    c6File.readResult = Except.ok c6Content ∧
    c6FirstOp ∈ loadGraphQLOperations (.ok [c6File]) c6ParseDoc ∧
    c6FirstOp.query = c6Content ∧
    (loadGraphQLOperations (.ok [c6File]) c6ParseDoc).map
        GraphQLOperation.query = [c6Content, c6Content] := by
  refine ⟨rfl, by decide, ?_, by decide⟩
  exact (C6_queryText_whole_file c6ParseDoc).2 c6File c6Content c6FirstOp rfl
    (by decide)

lemma loadOperationsLoop_error
    (parseDoc : String → Except String (List GQLDefinition)) :
    ∀ (files : List FileEntry) (acc : List GraphQLOperation)
      (f : FileEntry), f ∈ files → (∃ e, f.readResult = Except.error e) →
      ∃ e', loadOperationsLoop parseDoc files acc = .error e' := by
  intro files
  induction files with
  | nil => intro acc f hf _; cases hf
  | cons g rest ih =>
    intro acc f hf he
    rcases List.mem_cons.mp hf with rfl | hmem
    · rcases he with ⟨e, he⟩
      exact ⟨e, by simp [loadOperationsLoop, he]⟩
    · cases hg : g.readResult with
      | error e => exact ⟨e, by simp [loadOperationsLoop, hg]⟩
      | ok content =>
        cases hp : parseDoc content with
        | error pe =>
          rcases ih acc f hmem he with ⟨e', hl⟩
          exact ⟨e', by simp [loadOperationsLoop, hg, hp, hl]⟩
        | ok defs =>
          rcases ih (emitDefinitions content
              (extractDescriptionFromComments content) g.fileName acc defs)
              f hmem he with ⟨e', hl⟩
          exact ⟨e', by simp [loadOperationsLoop, hg, hp, hl]⟩

/-- C8: one unreadable .graphql file makes loadGraphQLOperations return
the empty list — the uncaught readFile rejection aborts the whole loop and
the outer catch discards every descriptor collected from earlier files. -/
theorem C8_unreadable_file_discards_all
    (parseDoc : String → Except String (List GQLDefinition))
    (files : List FileEntry) (f : FileEntry) (e : String)
    (hf : f ∈ files) (hgql : isGraphqlFile f = true)
    (herr : f.readResult = Except.error e) :
    loadGraphQLOperations (.ok files) parseDoc = [] := by
  have hmem : f ∈ files.filter isGraphqlFile :=
    List.mem_filter.mpr ⟨hf, hgql⟩
  obtain ⟨e', hl⟩ :=
    loadOperationsLoop_error parseDoc (files.filter isGraphqlFile) [] f hmem
      ⟨e, herr⟩
  simp [loadGraphQLOperations, hl]

/-- A readable file followed by an unreadable one, witnessing C8. -/
def c8Files : List FileEntry :=
  [⟨"A.graphql", .ok "query A \x7b a \x7d"⟩,
   ⟨"B.graphql", .error "EACCES: permission denied"⟩]

/-- The modelled parse for the readable file of the C8 witness. -/
def c8ParseDoc : String → Except String (List GQLDefinition) :=
  fun _ => .ok [.operation .query (some "A") []]

/-- Witness for C8: with the unreadable second file the load is empty even
though the first file alone yields a descriptor. -/
theorem C8_witness :
    loadGraphQLOperations (.ok c8Files) c8ParseDoc = [] ∧
    loadGraphQLOperations (.ok [⟨"A.graphql", .ok "query A \x7b a \x7d"⟩])
      c8ParseDoc ≠ [] := by
  refine ⟨?_, by decide⟩
  exact C8_unreadable_file_discards_all c8ParseDoc c8Files
    ⟨"B.graphql", .error "EACCES: permission denied"⟩
    "EACCES: permission denied" (by decide) (by decide) rfl

/-! Claims about the tool handlers of index.ts. -/

/-- C1: when the query parses to a document containing a mutation
definition, the query-graphql tool with mutation-allowance disabled
returns the fixed error-tagged result and issues no POST, while with
mutation-allowance enabled it behaves exactly as the backend-forwarding
path on the same query — the only behavioral difference between the two
configurations. -/
theorem C1_mutation_policy
    (parseGraphql : String → Except String (List GQLDefinition))
    (query : String) (vars : Option String) (fetch : FetchOutcome)
    (defs : List GQLDefinition)
    (hp : parseGraphql query = Except.ok defs)
    (hm : containsMutation defs = true) :
    queryGraphqlHandler false parseGraphql query vars fetch =
      { result := Except.ok (errResult mutationsNotAllowedText),
        posts := [] } ∧
    queryGraphqlHandler true parseGraphql query vars fetch =
      forwardToBackend query vars fetch := by
  constructor
  · simp [queryGraphqlHandler, hp, hm]
  · simp [queryGraphqlHandler, hp, hm]

/-- The modelled parse of the C1 witness query: one mutation definition. -/
def c1ParseDoc : String → Except String (List GQLDefinition) :=
  fun _ => .ok [.operation .mutation (some "AddUser") []]

/-- Witness for C1 at a concrete mutation query: rejected with zero POSTs
when disallowed, forwarded when allowed. -/
theorem C1_witness :
    c1ParseDoc "mutation AddUser \x7b id \x7d" =
      Except.ok [.operation .mutation (some "AddUser") []] ∧
    containsMutation [.operation .mutation (some "AddUser") []] = true ∧
    queryGraphqlHandler false c1ParseDoc "mutation AddUser \x7b id \x7d"
        none (.success "data") =
      { result := Except.ok (errResult mutationsNotAllowedText),
        posts := [] } ∧
    queryGraphqlHandler true c1ParseDoc "mutation AddUser \x7b id \x7d"
        none (.success "data") =
      forwardToBackend "mutation AddUser \x7b id \x7d" none
        (.success "data") := by
  refine ⟨rfl, by decide, ?_, ?_⟩
  · exact (C1_mutation_policy c1ParseDoc "mutation AddUser \x7b id \x7d"
      none (.success "data") [.operation .mutation (some "AddUser") []] rfl
      (by decide)).1
  · exact (C1_mutation_policy c1ParseDoc "mutation AddUser \x7b id \x7d"
      none (.success "data") [.operation .mutation (some "AddUser") []] rfl
      (by decide)).2

/-- C3 counterexample: with SCHEMA configured as an URL, the
introspect-schema tool still hands the value to introspectLocalSchema
(which fails on the missing local file) while the spec's source priority
would fetch the URL remotely and succeed — the tool and the spec's stated
resolution disagree at this input, so there is no remote-URL step in the
tool's source order (that branch exists only in the graphql-schema
resource). -/
theorem C3_counterexample_url_schema :
    introspectSchemaTool (some "http://example.com/schema.graphql")
        (fun _ => Except.error "ENOENT") (Except.ok "live schema") =
      errResult "Failed to introspect schema: ENOENT" ∧
    introspectSchemaToolSpec (some "http://example.com/schema.graphql")
        (fun _ => Except.error "ENOENT") (fun _ => Except.ok "remote schema")
        (Except.ok "live schema") =
      okResult "remote schema" ∧
    errResult "Failed to introspect schema: ENOENT" ≠
      okResult "remote schema" := by
  refine ⟨by decide, by decide, by decide⟩

/-- C3 amended: the tool resolves schema text with priority configured
SCHEMA value read as a local file (URL-shaped or not, and independent of
the endpoint source) → live introspection against the endpoint, and on
any failure of the consulted source it returns an error-tagged tool
result rather than propagating the thrown fault. -/
theorem C3_schema_source_priority (s e schema : String)
    (localSchema : String → Except String String)
    (endpointSchema : Except String String) :
    (∀ endpointSchema2 : Except String String,
        introspectSchemaTool (some s) localSchema endpointSchema =
          introspectSchemaTool (some s) localSchema endpointSchema2) ∧
    (localSchema s = Except.ok schema →
        introspectSchemaTool (some s) localSchema endpointSchema =
          okResult schema) ∧
    (localSchema s = Except.error e →
        introspectSchemaTool (some s) localSchema endpointSchema =
          errResult ("Failed to introspect schema: " ++ e)) ∧
    (endpointSchema = Except.ok schema →
        introspectSchemaTool none localSchema endpointSchema =
          okResult schema) ∧
    (endpointSchema = Except.error e →
        introspectSchemaTool none localSchema endpointSchema =
          errResult ("Failed to introspect schema: " ++ e)) := by
  refine ⟨?_, ?_, ?_, ?_, ?_⟩
  · intro ep2
    simp only [introspectSchemaTool]
  · intro h
    simp [introspectSchemaTool, okResult, h]
  · intro h
    simp [introspectSchemaTool, errResult, h]
  · intro h
    simp [introspectSchemaTool, okResult, h]
  · intro h
    simp [introspectSchemaTool, errResult, h]

/-- Witness for C3 at concrete sources: a configured local schema wins
even when the endpoint is down, and an endpoint failure without SCHEMA
comes back as an error-tagged result. -/
theorem C3_witness :
    introspectSchemaTool (some "./schema.graphql")
        (fun _ => Except.ok "type Query") (Except.error "down") =
      okResult "type Query" ∧
    introspectSchemaTool none (fun _ => Except.ok "unused")
        (Except.error "fetch failed") =
      errResult "Failed to introspect schema: fetch failed" := by
  constructor
  · exact (C3_schema_source_priority "./schema.graphql" "e" "type Query"
      (fun _ => Except.ok "type Query") (Except.error "down")).2.1 rfl
  · exact (C3_schema_source_priority "x" "fetch failed" "s"
      (fun _ => Except.ok "unused") (Except.error "fetch failed")).2.2.2.2 rfl

/-! Claims about the http-transport session handling. -/

/-- C2 counterexample: a POST carrying a session id absent from the
registry is not failed with the session-not-found condition — the handler
creates and connects one fresh transport and delegates the request to it. -/
theorem C2_counterexample_post_unknown :
    (handlePost ⟨[], 0⟩ true (some "stale-id")).2.1 =
      HttpResponse.handled 0 ∧
    (handlePost ⟨[], 0⟩ true (some "stale-id")).2.2 = 1 ∧
    HttpResponse.handled 0 ≠ HttpResponse.sessionNotFound := by
  refine ⟨by decide, by decide, by decide⟩

/-- C2 amended: GET (open-stream) and DELETE (terminate) requests whose
session id is missing or absent from the registry always get the
session-not-found envelope and leave the registry untouched; a POST with
an unknown id is instead treated like a new-session request and creates
one fresh transport. -/
theorem C2_unknown_session_rejected (st : MultiplexState) (sid : String)
    (isDelete : Bool) (closeThrows : Nat → Bool)
    (h : lookupTransport st sid = none) :
    handleGetOrDelete isDelete closeThrows st (some sid) =
      (st, HttpResponse.sessionNotFound) ∧
    handleGetOrDelete isDelete closeThrows st none =
      (st, HttpResponse.sessionNotFound) ∧
    (handlePost st true (some sid)).2.2 = 1 := by
  refine ⟨?_, rfl, ?_⟩
  · simp [handleGetOrDelete, h]
  · simp [handlePost, h]

/-- Witness for C2 on a registry holding one live session: a GET or
DELETE with a stale id is rejected without touching the registry. -/
theorem C2_witness :
    lookupTransport ⟨[("live", 7)], 8⟩ "stale" = none ∧
    handleGetOrDelete true (fun _ => false) ⟨[("live", 7)], 8⟩
        (some "stale") =
      (⟨[("live", 7)], 8⟩, HttpResponse.sessionNotFound) := by
  refine ⟨by decide, ?_⟩
  exact (C2_unknown_session_rejected ⟨[("live", 7)], 8⟩ "stale" true
    (fun _ => false) (by decide)).1

/-- C10: when DELETE finds the session but closing its transport throws,
the handler answers with the 500 internal-error envelope and does not
remove the registry entry — the id stays routable afterwards. -/
theorem C10_delete_close_failure (st : MultiplexState) (sid : String)
    (h : Nat) (closeThrows : Nat → Bool)
    (hl : lookupTransport st sid = some h) (hc : closeThrows h = true) :
    handleGetOrDelete true closeThrows st (some sid) =
      (st, HttpResponse.internalError) ∧
    lookupTransport
        (handleGetOrDelete true closeThrows st (some sid)).1 sid =
      some h := by
  have h1 : handleGetOrDelete true closeThrows st (some sid) =
      (st, HttpResponse.internalError) := by
    simp [handleGetOrDelete, hl, hc]
  refine ⟨h1, ?_⟩
  rw [h1]
  exact hl

/-- Witness for C10 on a one-session registry whose close throws. -/
theorem C10_witness :
    lookupTransport ⟨[("s1", 3)], 4⟩ "s1" = some 3 ∧
    (fun _ : Nat => true) 3 = true ∧
    handleGetOrDelete true (fun _ => true) ⟨[("s1", 3)], 4⟩ (some "s1") =
      (⟨[("s1", 3)], 4⟩, HttpResponse.internalError) := by
  refine ⟨by decide, rfl, ?_⟩
  exact (C10_delete_close_failure ⟨[("s1", 3)], 4⟩ "s1" 3 (fun _ => true)
    (by decide) rfl).1

lemma shutdownLoop_spec (closeThrows : Nat → Bool) :
    ∀ (l : List (String × Nat)) (events : List ShutdownEvent)
      (remaining : List (String × Nat)),
      shutdownLoop closeThrows l events remaining =
        (events ++
          l.map (fun p =>
            if closeThrows p.2 then ShutdownEvent.closeFailed p.2
            else ShutdownEvent.closedHandle p.2) ++
          [ShutdownEvent.serverClosed],
         remaining ++ l.filter (fun p => closeThrows p.2)) := by
  intro l
  induction l with
  | nil => intro events remaining; simp [shutdownLoop]
  | cons p rest ih =>
    intro events remaining
    obtain ⟨sid, h⟩ := p
    by_cases hc : closeThrows h = true
    · simp [shutdownLoop, hc, ih, List.filter_cons]
    · simp at hc
      simp [shutdownLoop, hc, ih, List.filter_cons]

/-- C7 counterexample: after the shutdown signal, a transport whose close
throws stays in the registry — the registry is not empty and that handle
was not closed. -/
theorem C7_counterexample_close_failure :
    (sigintHandler (fun _ => true) ⟨[("s1", 0)], 1⟩).2 = [("s1", 0)] ∧
    [("s1", 0)] ≠ ([] : List (String × Nat)) := by
  refine ⟨by decide, by decide⟩

/-- C7 amended: the SIGINT handler attempts a close of every registered
handle, all before the listening endpoint stops (every close event
precedes serverClosed in the trace); entries whose close succeeds are
removed, entries whose close throws remain, so the registry is empty
afterwards exactly in executions where no close throws. -/
theorem C7_shutdown_closes_before_server_stop (closeThrows : Nat → Bool)
    (st : MultiplexState) :
    (sigintHandler closeThrows st).2 =
      st.transports.filter (fun p => closeThrows p.2) ∧
    (sigintHandler closeThrows st).1 =
      st.transports.map (fun p =>
        if closeThrows p.2 then ShutdownEvent.closeFailed p.2
        else ShutdownEvent.closedHandle p.2) ++
        [ShutdownEvent.serverClosed] ∧
    ((∀ p ∈ st.transports, closeThrows p.2 = false) →
      (sigintHandler closeThrows st).2 = []) := by
  have hs := shutdownLoop_spec closeThrows st.transports [] []
  refine ⟨?_, ?_, ?_⟩
  · simp [sigintHandler, hs]
  · simp [sigintHandler, hs]
  · intro hall
    simp only [sigintHandler, hs]
    simp only [List.nil_append]
    rw [List.filter_eq_nil_iff]
    intro p hp
    simp [hall p hp]

/-- Witness for C7 on a two-session registry whose closes all succeed:
the registry empties and both closes precede the server stop. -/
theorem C7_witness :
    (∀ p ∈ [("a", 0), ("b", 1)], (fun _ : Nat => false) p.2 = false) ∧
    (sigintHandler (fun _ => false) ⟨[("a", 0), ("b", 1)], 2⟩).2 = [] ∧
    (sigintHandler (fun _ => false) ⟨[("a", 0), ("b", 1)], 2⟩).1 =
      [ShutdownEvent.closedHandle 0, ShutdownEvent.closedHandle 1,
       ShutdownEvent.serverClosed] := by
  refine ⟨by decide, ?_, by decide⟩
  exact (C7_shutdown_closes_before_server_stop (fun _ => false)
    ⟨[("a", 0), ("b", 1)], 2⟩).2.2 (by decide)

end MCPGraphQL
